import Mathlib

/-!
Verification of the event-processing core of the webdev-notifications
pipeline.  The TypeScript services (ingestion, preference engine, channel
router, delivery workers, analytics) are shallowly embedded as executable
Lean definitions; the theorems below settle the frozen claims about them.
-/

set_option maxHeartbeats 1000000

namespace Notif

/-! ## JSON-ish values

Rendering contexts and event `data` maps carry arbitrary JSON values.  We
model them with a small sum type (numbers as integers, which covers every
value the pipeline's tests and seeds use).  JavaScript truthiness and
string coercion are modelled explicitly. -/

inductive JsValue where
  | str (s : String)
  | num (n : Int)
  | boolean (b : Bool)
  | null
deriving DecidableEq, Repr

/-- JavaScript truthiness: `""`, `0`, `false` and `null` are falsy. -/
def JsValue.truthy : JsValue → Bool
  | .str s => !(s == "")
  | .num n => !(n == 0)
  | .boolean b => b
  | .null => false

/-- JavaScript `String(v)` coercion. -/
def JsValue.toJsString : JsValue → String
  | .str s => s
  | .num n => toString n
  | .boolean b => if b then "true" else "false"
  | .null => "null"

/-! ## C4: quiet hours

`PreferenceEngine.isInQuietHours` (src/services/preferences.ts) compares
`HH:MM:SS` strings with JavaScript string comparison, which is
lexicographic on UTF-16 code units; Lean's `String` order is lexicographic
on code points, which agrees on these ASCII strings. -/

/-- A time of day; `valid` bounds it to a real clock reading. -/
structure TimeOfDay where
  hour : Nat
  minute : Nat
  second : Nat
deriving DecidableEq, Repr

def TimeOfDay.valid (t : TimeOfDay) : Prop :=
  t.hour < 24 ∧ t.minute < 60 ∧ t.second < 60

def TimeOfDay.toSeconds (t : TimeOfDay) : Nat :=
  t.hour * 3600 + t.minute * 60 + t.second

/-- The canonical zero-padded `HH:MM:SS` rendering of a time of day (the
form produced by `padStart(2, '0')` formatting and by the database `time`
columns). -/
def TimeOfDay.toHMS (t : TimeOfDay) : String :=
  ⟨[Nat.digitChar (t.hour / 10), Nat.digitChar (t.hour % 10), ':',
    Nat.digitChar (t.minute / 10), Nat.digitChar (t.minute % 10), ':',
    Nat.digitChar (t.second / 10), Nat.digitChar (t.second % 10)]⟩

/-- Embedding of `PreferenceEngine.isInQuietHours`: JavaScript `<` / `>=`
on strings, with `end < start` marking a window that wraps midnight. -/
def isInQuietHours (currentTime startT endT : String) : Bool :=
  if endT < startT then
    !(decide (currentTime < startT)) || decide (currentTime < endT)
  else
    !(decide (currentTime < startT)) && decide (currentTime < endT)

/-- The formal wrap-around definition of spec section 4.2, stated on
numeric times: when `end < start` the window wraps midnight and
`in_quiet = now ≥ start ∨ now < end`; otherwise `start ≤ now < end`. -/
def specInQuietHours (now startT endT : TimeOfDay) : Bool :=
  if endT.toSeconds < startT.toSeconds then
    decide (startT.toSeconds ≤ now.toSeconds) || decide (now.toSeconds < endT.toSeconds)
  else
    decide (startT.toSeconds ≤ now.toSeconds) && decide (now.toSeconds < endT.toSeconds)

theorem digitChar_lt_iff :
    ∀ x < 10, ∀ y < 10, (Nat.digitChar x < Nat.digitChar y ↔ x < y) := by
  decide

theorem digitChar_inj10 :
    ∀ x < 10, ∀ y < 10, Nat.digitChar x = Nat.digitChar y → x = y := by
  decide

theorem lex_nil_nil_iff : List.Lex (· < ·) ([] : List Char) [] ↔ False :=
  iff_false_intro (fun h => nomatch h)

theorem cons_lex_cons_iff (a b : Char) (as bs : List Char) :
    List.Lex (· < ·) (a :: as) (b :: bs) ↔
      (a < b ∨ (a = b ∧ List.Lex (· < ·) as bs)) := by
  constructor
  · intro h
    cases h with
    | cons h => exact Or.inr ⟨rfl, h⟩
    | rel h => exact Or.inl h
  · intro h
    rcases h with h | ⟨rfl, h⟩
    · exact List.Lex.rel h
    · exact List.Lex.cons h

theorem digit_cons_lex_iff {x y : Nat} (hx : x < 10) (hy : y < 10)
    (as bs : List Char) :
    List.Lex (· < ·) (Nat.digitChar x :: as) (Nat.digitChar y :: bs) ↔
      (x < y ∨ (x = y ∧ List.Lex (· < ·) as bs)) := by
  rw [cons_lex_cons_iff]
  constructor
  · intro h
    rcases h with h | ⟨he, h⟩
    · exact Or.inl ((digitChar_lt_iff x hx y hy).mp h)
    · exact Or.inr ⟨digitChar_inj10 x hx y hy he, h⟩
  · intro h
    rcases h with h | ⟨rfl, h⟩
    · exact Or.inl ((digitChar_lt_iff x hx y hy).mpr h)
    · exact Or.inr ⟨rfl, h⟩

theorem colon_cons_lex_iff {as bs : List Char} :
    List.Lex (· < ·) ((':' : Char) :: as) (':' :: bs) ↔ List.Lex (· < ·) as bs := by
  rw [cons_lex_cons_iff]
  constructor
  · intro h
    rcases h with h | ⟨_, h⟩
    · exact absurd h (by decide)
    · exact h
  · intro h
    exact Or.inr ⟨rfl, h⟩

/-- Lexicographic comparison of `HH:MM:SS` strings agrees with
chronological comparison of the underlying times. -/
theorem toHMS_lt_iff {a b : TimeOfDay} (ha : a.valid) (hb : b.valid) :
    a.toHMS < b.toHMS ↔ a.toSeconds < b.toSeconds := by
  obtain ⟨ha1, ha2, ha3⟩ := ha
  obtain ⟨hb1, hb2, hb3⟩ := hb
  rw [String.lt_iff_toList_lt]
  show List.Lex (· < ·)
    [Nat.digitChar (a.hour / 10), Nat.digitChar (a.hour % 10), ':',
      Nat.digitChar (a.minute / 10), Nat.digitChar (a.minute % 10), ':',
      Nat.digitChar (a.second / 10), Nat.digitChar (a.second % 10)]
    [Nat.digitChar (b.hour / 10), Nat.digitChar (b.hour % 10), ':',
      Nat.digitChar (b.minute / 10), Nat.digitChar (b.minute % 10), ':',
      Nat.digitChar (b.second / 10), Nat.digitChar (b.second % 10)] ↔ _
  rw [digit_cons_lex_iff (by omega) (by omega),
      digit_cons_lex_iff (by omega) (by omega),
      colon_cons_lex_iff,
      digit_cons_lex_iff (by omega) (by omega),
      digit_cons_lex_iff (by omega) (by omega),
      colon_cons_lex_iff,
      digit_cons_lex_iff (by omega) (by omega),
      digit_cons_lex_iff (by omega) (by omega),
      lex_nil_nil_iff]
  unfold TimeOfDay.toSeconds
  simp only [and_false, or_false]
  omega

/-- Claim C4: for every current time and every pair of quiet-hours bounds
in `HH:MM:SS` form, the code's string-comparison quiet-hours predicate
returns `now ≥ start ∨ now < end` when `end < start` (window wrapping
midnight) and `start ≤ now ∧ now < end` otherwise, i.e. it equals the
formal wrap-around definition of spec section 4.2 on all inputs. -/
theorem quiet_hours_matches_spec (now startT endT : TimeOfDay)
    (hn : now.valid) (hs : startT.valid) (he : endT.valid) :
    isInQuietHours now.toHMS startT.toHMS endT.toHMS =
      specInQuietHours now startT endT := by
  unfold isInQuietHours specInQuietHours
  have hse : (endT.toHMS < startT.toHMS) ↔ (endT.toSeconds < startT.toSeconds) :=
    toHMS_lt_iff he hs
  have hns : decide (now.toHMS < startT.toHMS) = decide (now.toSeconds < startT.toSeconds) :=
    decide_eq_decide.mpr (toHMS_lt_iff hn hs)
  have hne : decide (now.toHMS < endT.toHMS) = decide (now.toSeconds < endT.toSeconds) :=
    decide_eq_decide.mpr (toHMS_lt_iff hn he)
  have hges : (!decide (now.toSeconds < startT.toSeconds)) =
      decide (startT.toSeconds ≤ now.toSeconds) := by
    rw [← decide_not, decide_eq_decide]
    omega
  by_cases h : endT.toSeconds < startT.toSeconds
  · rw [if_pos (hse.mpr h), if_pos h, hns, hne, hges]
  · rw [if_neg (fun hh => h (hse.mp hh)), if_neg h, hns, hne, hges]

/-- Witness for C4 at the concrete times of spec scenario D: 03:00:00
inside the 22:00:00-08:00:00 window that wraps midnight. -/
theorem quiet_hours_matches_spec_witness :
    TimeOfDay.valid ⟨3, 0, 0⟩ ∧ TimeOfDay.valid ⟨22, 0, 0⟩ ∧
      TimeOfDay.valid ⟨8, 0, 0⟩ ∧
      isInQuietHours (TimeOfDay.toHMS ⟨3, 0, 0⟩) (TimeOfDay.toHMS ⟨22, 0, 0⟩)
        (TimeOfDay.toHMS ⟨8, 0, 0⟩) = specInQuietHours ⟨3, 0, 0⟩ ⟨22, 0, 0⟩ ⟨8, 0, 0⟩ :=
  ⟨⟨by decide, by decide, by decide⟩, ⟨by decide, by decide, by decide⟩,
    ⟨by decide, by decide, by decide⟩,
    quiet_hours_matches_spec ⟨3, 0, 0⟩ ⟨22, 0, 0⟩ ⟨8, 0, 0⟩
      ⟨by decide, by decide, by decide⟩ ⟨by decide, by decide, by decide⟩
      ⟨by decide, by decide, by decide⟩⟩

/-! ## C3: per-channel allow/deny decision

`PreferenceEngine.isChannelAllowed` (src/services/preferences.ts).  The
Redis rate-limit counter is modelled by its integer value before the call
(`0` when the key is absent); `INCR` is atomic and returns the new value.
The returned record also reports whether the counter was incremented and
whether a TTL was set, so the side effects are observable. -/

structure Preference where
  enabled : Bool
  quietHoursStart : Option String
  quietHoursEnd : Option String
deriving DecidableEq, Repr

def DEFAULT_RATE_LIMIT : Nat := 10

structure RateDecision where
  allowed : Bool
  counter : Nat
  incremented : Bool
  ttlSet : Bool
deriving DecidableEq, Repr

/-- Embedding of `isChannelAllowed`: preference lookup result, event type,
current `HH:MM:SS` time and the rate-limit counter value before the call. -/
def isChannelAllowed (pref : Option Preference) (eventType : String)
    (currentTime : String) (counter : Nat) : RateDecision :=
  match pref with
  | none => ⟨!(decide (eventType = "marketing")), counter, false, false⟩
  | some p =>
    if !p.enabled then ⟨false, counter, false, false⟩
    else
      let quiet :=
        match p.quietHoursStart, p.quietHoursEnd with
        | some s, some e => isInQuietHours currentTime s e
        | _, _ => false
      if quiet then ⟨false, counter, false, false⟩
      else
        let currentCount := counter + 1
        ⟨!(decide (currentCount > DEFAULT_RATE_LIMIT)), currentCount, true,
          decide (currentCount = 1)⟩

/-- Conditions under which the claim's rules 1-3 deny. -/
def rules123Deny (pref : Option Preference) (et ct : String) : Prop :=
  (pref = none ∧ et = "marketing") ∨
    (∃ p, pref = some p ∧ (p.enabled = false ∨
      (∃ s e, p.quietHoursStart = some s ∧ p.quietHoursEnd = some e ∧
        isInQuietHours ct s e = true)))

/-- Counterexample to claim C3 as stated: with no preference row and a
non-marketing event type, none of rules 1-3 denies, yet the code allows
terminally and does not increment the rate-limit counter, contradicting
"the counter is incremented exactly when rules 1-3 did not deny". -/
theorem channel_counter_not_incremented :
    (isChannelAllowed none "account" "12:00:00" 0).incremented = false ∧
      ¬ rules123Deny none "account" "12:00:00" := by
  refine ⟨rfl, ?_⟩
  rintro (⟨_, h⟩ | ⟨p, hp, _⟩)
  · exact absurd h (by decide)
  · exact nomatch hp

/-- Result of one of the decision rules when evaluated in order. -/
inductive RuleOutcome where
  | deny
  | allowNow
  | passOn
deriving DecidableEq, Repr

/-- Rule 1 (marketing default): absence of a preference row is terminal -
deny for marketing, allow for everything else. -/
def rule1MarketingDefault (pref : Option Preference) (eventType : String) :
    RuleOutcome :=
  match pref with
  | none => if eventType = "marketing" then .deny else .allowNow
  | some _ => .passOn

/-- Rule 2 (explicit disable). -/
def rule2ExplicitDisable (p : Preference) : RuleOutcome :=
  if p.enabled then .passOn else .deny

/-- Rule 3 (quiet hours, when both bounds are set). -/
def rule3QuietHours (p : Preference) (currentTime : String) : RuleOutcome :=
  match p.quietHoursStart, p.quietHoursEnd with
  | some s, some e => if isInQuietHours currentTime s e then .deny else .passOn
  | _, _ => .passOn

/-- The amended claim's decision pipeline: rules evaluated in order, first
denial (or rule 1's terminal allow) wins, and only rule 4 touches the
counter - incrementing it even when rule 4 itself denies, setting the
3600 s TTL exactly on the window-opening increment. -/
def specChannelDecision (pref : Option Preference) (et ct : String)
    (counter : Nat) : RateDecision :=
  match rule1MarketingDefault pref et with
  | .deny => ⟨false, counter, false, false⟩
  | .allowNow => ⟨true, counter, false, false⟩
  | .passOn =>
    match pref with
    | none => ⟨true, counter, false, false⟩
    | some p =>
      match rule2ExplicitDisable p with
      | .deny => ⟨false, counter, false, false⟩
      | _ =>
        match rule3QuietHours p ct with
        | .deny => ⟨false, counter, false, false⟩
        | _ => ⟨decide (counter + 1 ≤ DEFAULT_RATE_LIMIT), counter + 1, true,
            decide (counter = 0)⟩

/-- Claim C3 amended: the decision evaluates the four rules in order with
the first denial winning, except that the absence of a preference row is
terminal for rule 1 (deny for marketing, allow otherwise) and then touches
no counter; when a row exists and rules 2-3 did not deny, the counter is
incremented (TTL set exactly when the new value is 1) and the decision
denies iff the incremented value exceeds 10, the increment happening even
on a denial by rule 4 itself. -/
theorem channel_allowed_amended (pref : Option Preference) (et ct : String)
    (k : Nat) :
    isChannelAllowed pref et ct k = specChannelDecision pref et ct k := by
  unfold isChannelAllowed specChannelDecision rule1MarketingDefault
    rule2ExplicitDisable rule3QuietHours
  rcases pref with _ | p
  · by_cases h : et = "marketing" <;> simp [h]
  · cases hen : p.enabled with
    | false => simp [hen]
    | true =>
      rcases hq1 : p.quietHoursStart with _ | s <;>
        rcases hq2 : p.quietHoursEnd with _ | e <;>
          simp only [hq1, hq2, hen] <;>
            try (cases hqh : isInQuietHours ct s e)
      all_goals try simp_all
      all_goals (rw [← decide_not]; exact decide_eq_decide.mpr (by omega))

/-! ## C5: template rendering

`ChannelRouter.renderTemplate` (src/services/router.ts).  The JavaScript
global-regex replace of a literal pattern (left-to-right, non-overlapping)
is modelled by `jsReplaceAll` below, which is exact for variable names
without regex metacharacters (all names the repository uses are
alphanumeric).  Placeholder braces are written with their `\x7b`/`\x7d`
escapes. -/

structure Template where
  subject : Option String
  body : String
  vars : List String
deriving DecidableEq, Repr

/-- Drop `pat` from the front of `l`, or fail. -/
def stripLeading : List Char → List Char → Option (List Char)
  | [], l => some l
  | _ :: _, [] => none
  | p :: ps, c :: cs => if p = c then stripLeading ps cs else none

/-- Left-to-right non-overlapping replacement, with enough fuel to scan
the whole input (each step consumes fuel, and a match consumes at least
one character when the pattern is nonempty). -/
def replaceFuel (pat rep : List Char) : Nat → List Char → List Char
  | 0, l => l
  | _ + 1, [] => []
  | fuel + 1, c :: rest =>
      match stripLeading pat (c :: rest) with
      | some rest2 => rep ++ replaceFuel pat rep fuel rest2
      | none => c :: replaceFuel pat rep fuel rest

/-- JavaScript `s.replace(new RegExp(pat, 'g'), rep)` for a literal
pattern: replace every non-overlapping occurrence, scanning left to
right.  An empty pattern never arises from a placeholder. -/
def jsReplaceAll (s pat rep : String) : String :=
  match pat.data with
  | [] => s
  | _ :: _ => ⟨replaceFuel pat.data rep.data s.data.length s.data⟩

/-- The `\x7b\x7bname\x7d\x7d` placeholder for a variable. -/
def varPat (v : String) : String := "\x7b\x7b" ++ v ++ "\x7d\x7d"

/-- Last-binding-wins lookup in a JSON object (JavaScript object literals
keep the last duplicate key). -/
def objGet (l : List (String × JsValue)) (name : String) : Option JsValue :=
  (l.reverse.find? (fun p => p.1 == name)).map (fun p => p.2)

/-- JavaScript `email.split('@')[0]`. -/
def emailLocalPart (email : String) : String :=
  (email.splitOn "@").headD ""

/-- Fallback for the injected `userName`:
`userEmail?.split('@')[0] || 'User'`. -/
def userNameFallback (userEmail : Option String) : JsValue :=
  match userEmail with
  | some em => if emailLocalPart em == "" then .str "User" else .str (emailLocalPart em)
  | none => .str "User"

/-- The injected `userName` context value:
`event.data.userName || event.userEmail?.split('@')[0] || 'User'`. -/
def userNameValue (data : List (String × JsValue)) (userEmail : Option String) :
    JsValue :=
  match objGet data "userName" with
  | some v => if v.truthy then v else userNameFallback userEmail
  | none => userNameFallback userEmail

/-- Property access on the spread object
`(...data, userName: ..., userEmail: ...)`: the injected keys shadow
`data`, and `userEmail` is present (possibly as `undefined`) either way. -/
def contextGet (data : List (String × JsValue)) (userEmail : Option String)
    (name : String) : Option JsValue :=
  if name == "userName" then some (userNameValue data userEmail)
  else if name == "userEmail" then userEmail.map JsValue.str
  else objGet data name

/-- `String(value || '')`: the replacement text the router substitutes for
a placeholder - empty for an absent or falsy value. -/
def replacementText (v : Option JsValue) : String :=
  match v with
  | some val => if val.truthy then val.toJsString else ""
  | none => ""

/-- Embedding of `ChannelRouter.renderTemplate`: substitute every declared
variable in the body, then (when a subject is present) in the subject.
(The source skips the subject loop when the subject is the empty string;
replacing inside the empty string is the identity, so the embedding folds
over any present subject.) -/
def renderTemplate (tmpl : Template) (data : List (String × JsValue))
    (userEmail : Option String) : Option String × String :=
  (match tmpl.subject with
    | none => none
    | some s => some (tmpl.vars.foldl
        (fun b v => jsReplaceAll b (varPat v) (replacementText (contextGet data userEmail v))) s),
    tmpl.vars.foldl
      (fun b v => jsReplaceAll b (varPat v) (replacementText (contextGet data userEmail v)))
      tmpl.body)

/-- The replacement the claim's words prescribe: the string form of the
context value, or the empty string only when the value is absent. -/
def claimReplacementText (v : Option JsValue) : String :=
  match v with
  | some val => val.toJsString
  | none => ""

/-- The rendering context as the claim describes it: `event.data` merged
with the injected `userName` and `userEmail` bindings (later bindings
shadow earlier ones; an injected `userEmail` may be `undefined`). -/
def mergedContext (data : List (String × JsValue)) (ue : Option String) :
    List (String × Option JsValue) :=
  (data.map (fun p => (p.1, some p.2))) ++
    [("userName", some (userNameValue data ue)), ("userEmail", ue.map JsValue.str)]

def mergedGet (l : List (String × Option JsValue)) (name : String) :
    Option JsValue :=
  match l.reverse.find? (fun p => p.1 == name) with
  | some p => p.2
  | none => none

/-- The rendering the claim's words describe verbatim: for each declared
name, replace all its placeholder occurrences in subject and body with the
string form of the context value (empty only when absent). -/
def claimRenderTemplate (tmpl : Template) (data : List (String × JsValue))
    (ue : Option String) : Option String × String :=
  tmpl.vars.foldl
    (fun (acc : Option String × String) v =>
      (acc.1.map (fun s => jsReplaceAll s (varPat v)
          (claimReplacementText (mergedGet (mergedContext data ue) v))),
        jsReplaceAll acc.2 (varPat v)
          (claimReplacementText (mergedGet (mergedContext data ue) v))))
    (tmpl.subject, tmpl.body)

/-- The amended rendering contract: as the claim, but a present falsy
value (false, 0, null or the empty string) also renders as empty. -/
def specRenderTemplate (tmpl : Template) (data : List (String × JsValue))
    (ue : Option String) : Option String × String :=
  tmpl.vars.foldl
    (fun (acc : Option String × String) v =>
      (acc.1.map (fun s => jsReplaceAll s (varPat v)
          (replacementText (mergedGet (mergedContext data ue) v))),
        jsReplaceAll acc.2 (varPat v)
          (replacementText (mergedGet (mergedContext data ue) v))))
    (tmpl.subject, tmpl.body)

def tmplFlag : Template := ⟨none, "\x7b\x7bflag\x7d\x7d", ["flag"]⟩

/-- Counterexample to claim C5 as stated: a declared variable bound to the
present value `false` renders as the empty string, not as its string form
"false". -/
theorem render_falsy_value_counterexample :
    (renderTemplate tmplFlag [("flag", JsValue.boolean false)] none).2 = "" ∧
      (claimRenderTemplate tmplFlag [("flag", JsValue.boolean false)] none).2 = "false" := by
  constructor <;> rfl

theorem foldl_pair_split (repl : String → String) (vars : List String)
    (so : Option String) (b : String) :
    vars.foldl
        (fun (acc : Option String × String) v =>
          (acc.1.map (fun s => jsReplaceAll s (varPat v) (repl v)),
            jsReplaceAll acc.2 (varPat v) (repl v)))
        (so, b) =
      (so.map (fun s => vars.foldl (fun b2 v => jsReplaceAll b2 (varPat v) (repl v)) s),
        vars.foldl (fun b2 v => jsReplaceAll b2 (varPat v) (repl v)) b) := by
  induction vars generalizing so b with
  | nil => cases so <;> rfl
  | cons v vs ih =>
      show vs.foldl _ (so.map (fun s => jsReplaceAll s (varPat v) (repl v)),
        jsReplaceAll b (varPat v) (repl v)) = _
      rw [ih]
      cases so <;> rfl

theorem find?_map_snd (l : List (String × JsValue)) (name : String) :
    (match (l.map (fun p => (p.1, some p.2))).find? (fun p => p.1 == name) with
      | some p => p.2
      | none => none) =
      (l.find? (fun p => p.1 == name)).map (fun p => p.2) := by
  induction l with
  | nil => rfl
  | cons a l ih =>
      by_cases h : a.1 = name
      · simp [List.find?, h]
      · simp only [List.map_cons, List.find?]
        have hb : (a.1 == name) = false := by simp [h]
        simp only [hb]
        exact ih

theorem mergedContext_get (data : List (String × JsValue)) (ue : Option String)
    (name : String) :
    mergedGet (mergedContext data ue) name = contextGet data ue name := by
  unfold mergedGet mergedContext contextGet objGet
  by_cases h1 : name = "userName"
  · subst h1
    simp [List.find?]
  · by_cases h2 : name = "userEmail"
    · subst h2
      simp [List.find?]
    · have b1 : (name == "userName") = false := by simp [h1]
      have b2 : (name == "userEmail") = false := by simp [h2]
      have e1 : (("userEmail", ue.map JsValue.str).1 == name) = false := by
        simp [Ne.symm h2]
      have e2 : (("userName", some (userNameValue data ue)).1 == name) = false := by
        simp [Ne.symm h1]
      simp only [List.reverse_append, List.reverse_cons, List.reverse_nil,
        List.nil_append, List.cons_append, List.find?, e1, e2, b1, b2,
        Bool.false_eq_true, if_false, ← List.map_reverse]
      exact find?_map_snd data.reverse name

/-- Claim C5 amended: rendering builds a context merging `event.data` with
the injected `userName` (the data value when truthy, else the part of
`userEmail` before the at sign when nonempty, else "User") and
`userEmail`; then for each name declared in `template.variables` it
replaces every occurrence of its placeholder in both subject and body with
the string form of the context value, the empty string standing in for a
value that is absent or falsy (false, 0, null, empty string).
Placeholders of undeclared names are untouched, as only declared names are
substituted. -/
theorem render_template_amended (tmpl : Template)
    (data : List (String × JsValue)) (ue : Option String) :
    renderTemplate tmpl data ue = specRenderTemplate tmpl data ue := by
  unfold renderTemplate specRenderTemplate
  rw [foldl_pair_split]
  simp only [mergedContext_get]
  cases tmpl.subject <;> rfl

/-! ## C7: submitted-event validation

`notificationEventSchema` (src/types.ts, zod).  The raw JSON payload is
modelled as a record of optional fields of the right primitive types;
`isDT` abstracts the zod `z.string().datetime()` format check (library
code outside the repository), and `now` the default applied to a missing
`createdAt`.  zod validates every field and succeeds exactly when all
checks pass, applying the declared defaults. -/

structure RawEvent where
  eventId : Option String
  eventType : Option String
  userId : Option String
  channels : Option (List String)
  priority : Option String
  data : Option (List (String × JsValue))
  scheduledAt : Option String
  expiresAt : Option String
  metadata : Option (List (String × JsValue))
  createdAt : Option String
deriving DecidableEq, Repr

structure ParsedEvent where
  eventId : String
  eventType : String
  userId : String
  channels : List String
  priority : String
  data : List (String × JsValue)
  scheduledAt : Option String
  expiresAt : Option String
  metadata : Option (List (String × JsValue))
  createdAt : String
deriving DecidableEq, Repr

def channelValues : List String := ["email", "sms", "push", "in_app"]

def eventTypeValues : List String := ["account", "security", "marketing", "system"]

def priorityValues : List String := ["low", "normal", "high", "urgent"]

/-- Embedding of `notificationEventSchema.safeParse`: `none` is a failed
parse.  `eventId`/`userId` carry `.min(1)`, `channels` `.min(1)` over the
channel enum, `priority` defaults to "normal", `createdAt` defaults to the
current time, and the three timestamp fields must satisfy the library
datetime format `isDT` when present. -/
def validateEvent (isDT : String → Bool) (now : String) (raw : RawEvent) :
    Option ParsedEvent :=
  match raw.eventId, raw.eventType, raw.userId, raw.channels, raw.data with
  | some eid, some et, some uid, some chs, some d =>
      if (decide (1 ≤ eid.length)) && eventTypeValues.contains et
          && (decide (1 ≤ uid.length))
          && (decide (1 ≤ chs.length))
          && chs.all (fun c => channelValues.contains c)
          && (match raw.priority with
              | none => true
              | some p => priorityValues.contains p)
          && (match raw.scheduledAt with | none => true | some s => isDT s)
          && (match raw.expiresAt with | none => true | some s => isDT s)
          && (match raw.createdAt with | none => true | some s => isDT s) then
        some ⟨eid, et, uid, chs, raw.priority.getD "normal", d, raw.scheduledAt,
          raw.expiresAt, raw.metadata, raw.createdAt.getD now⟩
      else none
  | _, _, _, _, _ => none

/-- A fully valid raw event that simply omits `createdAt`. -/
def rawNoCreatedAt : RawEvent :=
  ⟨some "e1", some "account", some "u1", some ["email"], some "normal",
    some [("userName", JsValue.str "Alice")], none, none, none, none⟩

/-- Counterexample to claim C7 as stated: `created_at` is listed as a
required field whose absence must fail validation, but the schema gives it
a default, so this event (valid except for the missing `createdAt`)
parses successfully. -/
theorem validate_missing_created_at_succeeds :
    rawNoCreatedAt.createdAt = none ∧
      (validateEvent (fun _ => false) "2026-01-01T00:00:00.000Z" rawNoCreatedAt).isSome = true := by
  constructor <;> rfl

/-- The amended validity condition, following the claim with the forced
changes: `created_at` is optional (defaulted), `event_id`/`user_id` must
additionally be nonempty, and timestamps are checked against the library
datetime format when present. -/
def validAmended (isDT : String → Bool) (raw : RawEvent) : Prop :=
  (∃ eid, raw.eventId = some eid ∧ eid ≠ "") ∧
    (∃ et, raw.eventType = some et ∧ et ∈ eventTypeValues) ∧
    (∃ uid, raw.userId = some uid ∧ uid ≠ "") ∧
    (∃ chs, raw.channels = some chs ∧ chs ≠ [] ∧ ∀ c ∈ chs, c ∈ channelValues) ∧
    (∀ p, raw.priority = some p → p ∈ priorityValues) ∧
    (∃ d, raw.data = some d) ∧
    (∀ s, raw.scheduledAt = some s → isDT s = true) ∧
    (∀ s, raw.expiresAt = some s → isDT s = true) ∧
    (∀ s, raw.createdAt = some s → isDT s = true)

theorem string_ne_empty_iff_len (s : String) : (s ≠ "") ↔ 1 ≤ s.length := by
  rcases s with ⟨l⟩
  cases l with
  | nil => exact ⟨fun h => absurd rfl h, fun h => absurd h (by decide)⟩
  | cons c cs =>
      refine ⟨fun _ => ?_, fun _ h => ?_⟩
      · show 1 ≤ cs.length + 1
        omega
      · exact nomatch congrArg String.data h

theorem list_ne_nil_iff_len {α : Type} (l : List α) : (l ≠ []) ↔ 1 ≤ l.length := by
  cases l <;> simp

/-- The validation outcome as a Boolean, mirroring the schema's checks. -/
def validB (isDT : String → Bool) (raw : RawEvent) : Bool :=
  match raw.eventId, raw.eventType, raw.userId, raw.channels, raw.data with
  | some eid, some et, some uid, some chs, some _ =>
      (decide (1 ≤ eid.length)) && eventTypeValues.contains et
        && (decide (1 ≤ uid.length)) && (decide (1 ≤ chs.length))
        && chs.all (fun c => channelValues.contains c)
        && (match raw.priority with
            | none => true
            | some p => priorityValues.contains p)
        && (match raw.scheduledAt with | none => true | some s => isDT s)
        && (match raw.expiresAt with | none => true | some s => isDT s)
        && (match raw.createdAt with | none => true | some s => isDT s)
  | _, _, _, _, _ => false

theorem isSome_validate (isDT : String → Bool) (now : String) (raw : RawEvent) :
    (validateEvent isDT now raw).isSome = validB isDT raw := by
  rcases raw with ⟨eid, et, uid, chs, prio, d, sat, eat, md, cat⟩
  rcases eid with _ | eid <;> rcases et with _ | et <;> rcases uid with _ | uid <;>
    rcases chs with _ | chs <;> rcases d with _ | d <;>
      unfold validateEvent validB <;> dsimp only <;> try rfl
  split <;> simp_all

theorem validB_iff (isDT : String → Bool) (raw : RawEvent) :
    validB isDT raw = true ↔ validAmended isDT raw := by
  rcases raw with ⟨eid, et, uid, chs, prio, d, sat, eat, md, cat⟩
  rcases eid with _ | eid <;> rcases et with _ | et <;> rcases uid with _ | uid <;>
    rcases chs with _ | chs <;> rcases d with _ | d <;>
      unfold validB validAmended <;> dsimp only <;>
      try (simp; done)
  rcases prio with _ | p <;> rcases sat with _ | s1 <;> rcases eat with _ | s2 <;>
    rcases cat with _ | s3 <;>
      simp [Bool.and_eq_true, string_ne_empty_iff_len, list_ne_nil_iff_len,
        List.all_eq_true, List.contains, and_assoc]

theorem validate_defaults (isDT : String → Bool) (now : String) (raw : RawEvent) :
    ∀ p, validateEvent isDT now raw = some p →
      p.priority = raw.priority.getD "normal" ∧
        p.createdAt = raw.createdAt.getD now := by
  rcases raw with ⟨eid, et, uid, chs, prio, d, sat, eat, md, cat⟩
  rcases eid with _ | eid <;> rcases et with _ | et <;> rcases uid with _ | uid <;>
    rcases chs with _ | chs <;> rcases d with _ | d <;>
      unfold validateEvent <;> dsimp only <;>
      try (intro p h; exact Option.noConfusion h)
  intro p h
  split at h
  · injection h with h
    subst h
    exact ⟨rfl, rfl⟩
  · exact Option.noConfusion h

/-- Claim C7 corrected: validation succeeds exactly on the amended
condition, and on success `priority` defaults to "normal" and `createdAt`
defaults to the current time when absent. -/
theorem validate_event_amended (isDT : String → Bool) (now : String)
    (raw : RawEvent) :
    ((validateEvent isDT now raw).isSome = true ↔ validAmended isDT raw) ∧
      (∀ p, validateEvent isDT now raw = some p →
        p.priority = raw.priority.getD "normal" ∧
          p.createdAt = raw.createdAt.getD now) := by
  constructor
  · rw [isSome_validate]
    exact validB_iff isDT raw
  · exact validate_defaults isDT now raw

/-- A concrete fully-populated raw event for the C7 witness. -/
def rawFull : RawEvent :=
  ⟨some "e1", some "security", some "u1", some ["sms"], some "high", some [],
    none, none, none, some "2026-01-01T00:00:00Z"⟩

/-- Witness for C7: the defaults clause applied at a concrete event. -/
theorem validate_event_amended_witness :
    ParsedEvent.priority ⟨"e1", "security", "u1", ["sms"], "high", [], none,
        none, none, "2026-01-01T00:00:00Z"⟩ = rawFull.priority.getD "normal" ∧
      ParsedEvent.createdAt ⟨"e1", "security", "u1", ["sms"], "high", [], none,
        none, none, "2026-01-01T00:00:00Z"⟩ = rawFull.createdAt.getD "T0" :=
  (validate_event_amended (fun _ => true) "T0" rawFull).2
    ⟨"e1", "security", "u1", ["sms"], "high", [], none, none, none,
      "2026-01-01T00:00:00Z"⟩ (by decide)

/-! ## Delivery workers (C1, C6, C10)

`EmailWorker`, `SMSWorker`, `PushWorker`, `InAppWorker`
(src/workers/email.ts, in-app.ts, push.ts).  A worker's externally visible
behaviour is modelled as a trace of actions; the transport adapter is
abstracted by its outcome (`none` for success, `some err` for a thrown
error).  The in-app "transport" is the database insert followed by the
Redis broadcast, either of which can throw, so it takes two outcome
parameters; the insert-then-broadcast order is kept. -/

structure RenderedMsg where
  eventId : String
  eventType : String
  userId : String
  subject : Option String
  body : String
  priority : String
  createdAt : String
deriving DecidableEq, Repr

structure DeliveryRow where
  eventId : String
  userId : String
  channel : String
  eventType : String
  status : String
  attemptCount : Nat
  error : Option String
deriving DecidableEq, Repr

structure DlqRecord where
  msg : RenderedMsg
  error : String
  movedToDlqAt : String
deriving DecidableEq, Repr

inductive WAction where
  | breakerOpen
  | sleep (ms : Nat)
  | fetch
  | writeRow (row : DeliveryRow)
  | publishDlq (rec : DlqRecord)
  | wsBroadcast (userId : String)
  | ack
  | nak
deriving DecidableEq, Repr

def MAX_RETRIES : Nat := 3

structure WorkerCfg where
  channel : String
  retryDelays : List Nat
  cooldownMs : Nat
deriving DecidableEq, Repr

def emailCfg : WorkerCfg := ⟨"email", [1000, 5000, 15000], 10000⟩

def smsCfg : WorkerCfg := ⟨"sms", [2000, 10000, 30000], 15000⟩

def pushCfg : WorkerCfg := ⟨"push", [1000, 5000, 15000], 10000⟩

/-- The three workers that share the retry/breaker loop shape. -/
inductive BChan where
  | email
  | sms
  | push
deriving DecidableEq, Repr

def cfgOf : BChan → WorkerCfg
  | .email => emailCfg
  | .sms => smsCfg
  | .push => pushCfg

def deliveredRow (channel : String) (n : RenderedMsg) (attempt : Nat) :
    DeliveryRow :=
  ⟨n.eventId, n.userId, channel, n.eventType, "delivered", attempt, none⟩

def failedRow (channel : String) (n : RenderedMsg) (err : String) : DeliveryRow :=
  ⟨n.eventId, n.userId, channel, n.eventType, "failed", MAX_RETRIES, some err⟩

/-- Retry backoff before a redelivered message:
`RETRY_DELAYS[min(r - 1, len - 1)]`. -/
def backoffTrace (cfg : WorkerCfg) (r : Nat) : List WAction :=
  if r > 0 then
    [WAction.sleep (cfg.retryDelays.getD (min (r - 1) (cfg.retryDelays.length - 1)) 0)]
  else []

/-- One message of the email/sms/push per-message protocol: backoff, then
deliver (delivered row before ack) or, on a thrown transport error, DLQ
plus failed row plus ack at the retry budget, NAK otherwise. -/
def stdHandleMessage (cfg : WorkerCfg) (r : Nat) (n : RenderedMsg)
    (sendErr : Option String) (now : String) : List WAction :=
  backoffTrace cfg r ++
    match sendErr with
    | none => [.writeRow (deliveredRow cfg.channel n (r + 1)), .ack]
    | some err =>
        if r + 1 ≥ MAX_RETRIES then
          [.publishDlq ⟨n, err, now⟩, .writeRow (failedRow cfg.channel n err), .ack]
        else [.nak]

/-- One message of the in-app worker: no backoff; insert the delivered row,
broadcast, ack - and on a thrown error, DLQ-plus-ack at the retry budget
(without writing any failed row) or NAK otherwise.  A broadcast error
strikes after the row insert, which therefore persists. -/
def inAppHandleMessage (r : Nat) (n : RenderedMsg) (insertErr wsErr : Option String)
    (now : String) : List WAction :=
  match insertErr with
  | some err =>
      if r + 1 ≥ MAX_RETRIES then [.publishDlq ⟨n, err, now⟩, .ack] else [.nak]
  | none =>
      match wsErr with
      | none => [.writeRow (deliveredRow "in_app" n (r + 1)), .wsBroadcast n.userId, .ack]
      | some err =>
          .writeRow (deliveredRow "in_app" n (r + 1)) ::
            (if r + 1 ≥ MAX_RETRIES then [.publishDlq ⟨n, err, now⟩, .ack] else [.nak])

def rowsOf (tr : List WAction) : List DeliveryRow :=
  tr.filterMap (fun a => match a with | .writeRow row => some row | _ => none)

def dlqOf (tr : List WAction) : List DlqRecord :=
  tr.filterMap (fun a => match a with | .publishDlq rec => some rec | _ => none)

def isAckA : WAction → Bool
  | .ack => true
  | _ => false

def isNakA : WAction → Bool
  | .nak => true
  | _ => false

def isFetchA : WAction → Bool
  | .fetch => true
  | _ => false

/-- Sleeping or opening the breaker - the two ways a worker pauses. -/
def isPauseA : WAction → Bool
  | .sleep _ => true
  | .breakerOpen => true
  | _ => false

/-- Every delivery-row write happens before the first ack. -/
def rowsBeforeAck (tr : List WAction) : Bool :=
  rowsOf (tr.takeWhile (fun a => !isAckA a)) == rowsOf tr

/-! ### C6/C10 loop state -/

structure BreakerState where
  consecutiveFailures : Nat
  circuitOpen : Bool
deriving DecidableEq, Repr

/-- Top-of-loop circuit-breaker gate: at five or more consecutive
failures, open the breaker, sleep the cooldown and reset. -/
def stdGate (cfg : WorkerCfg) (st : BreakerState) : List WAction × BreakerState :=
  if st.consecutiveFailures ≥ 5 then
    ((if st.circuitOpen then [] else [WAction.breakerOpen]) ++
        [WAction.sleep cfg.cooldownMs],
      ⟨0, false⟩)
  else ([], st)

structure StdMsg where
  redeliveryCount : Nat
  msg : RenderedMsg
  sendErr : Option String
  now : String
deriving DecidableEq, Repr

/-- Process a fetched batch sequentially, threading the
consecutive-failures counter (reset on success, plus one on failure). -/
def stdProcessBatch (cfg : WorkerCfg) (fails : Nat) :
    List StdMsg → List WAction × Nat
  | [] => ([], fails)
  | m :: ms =>
      let tr := stdHandleMessage cfg m.redeliveryCount m.msg m.sendErr m.now
      let f2 := if m.sendErr.isNone then 0 else fails + 1
      let rest := stdProcessBatch cfg f2 ms
      (tr ++ rest.1, rest.2)

/-- One iteration of the email/sms/push worker loop: breaker gate, fetch,
process the batch. -/
def stdLoopIter (cfg : WorkerCfg) (st : BreakerState) (batch : List StdMsg) :
    List WAction × BreakerState :=
  let gate := stdGate cfg st
  let proc := stdProcessBatch cfg gate.2.consecutiveFailures batch
  (gate.1 ++ WAction.fetch :: proc.1, ⟨proc.2, gate.2.circuitOpen⟩)

structure InAppMsg where
  redeliveryCount : Nat
  msg : RenderedMsg
  insertErr : Option String
  wsErr : Option String
  now : String
deriving DecidableEq, Repr

/-- One iteration of the in-app worker loop: it keeps no breaker state at
all (the type says so - there is no counter to thread), fetches and
processes immediately. -/
def inAppLoopIter (batch : List InAppMsg) : List WAction :=
  WAction.fetch ::
    (batch.map (fun m =>
      inAppHandleMessage m.redeliveryCount m.msg m.insertErr m.wsErr m.now)).flatten

/-- The claim's counter law, as a recomputation: reset to 0 on every
success, plus one on every failure. -/
def specFailCount (g : Nat) : List StdMsg → Nat
  | [] => g
  | m :: ms => specFailCount (if m.sendErr.isNone then 0 else g + 1) ms

def sampleMsg : RenderedMsg :=
  ⟨"e1", "account", "u1", some "Hi", "body", "normal", "2026-01-01T00:00:00Z"⟩

/-- Counterexample to claim C1 as stated: at the retry budget
(redelivery count 2, so r+1 = 3) the in-app worker publishes the DLQ
record and acks but writes no Delivery row at all - in particular no
`status=failed, attempt_count=3` row with the error set, which the claim
requires of every worker. -/
theorem inapp_dlq_writes_no_failed_row :
    inAppHandleMessage 2 sampleMsg (some "db error") none "T0" =
        [.publishDlq ⟨sampleMsg, "db error", "T0"⟩, .ack] ∧
      rowsOf (inAppHandleMessage 2 sampleMsg (some "db error") none "T0") = [] := by
  constructor <;> rfl

/-- Claim C1 amended: the email, sms and push workers follow the claimed
per-message protocol exactly (delivered row with `attempt_count = r+1`
before the ack on success; DLQ record plus failed row with
`attempt_count = 3` and the error set, then ack, at `r+1 ≥ 3`; NAK with no
row otherwise).  The in-app worker follows it except that its terminal
failure writes no failed Delivery row, and a broadcast failure after the
row insert leaves the delivered row written even though the message is
NAKed or DLQed. -/
theorem worker_protocol_amended (c : BChan) (r : Nat) (n : RenderedMsg)
    (e now : String) :
    (rowsOf (stdHandleMessage (cfgOf c) r n none now) =
        [deliveredRow (cfgOf c).channel n (r + 1)]) ∧
      (dlqOf (stdHandleMessage (cfgOf c) r n none now) = []) ∧
      ((stdHandleMessage (cfgOf c) r n none now).getLast? = some WAction.ack) ∧
      (rowsBeforeAck (stdHandleMessage (cfgOf c) r n none now) = true) ∧
      ((stdHandleMessage (cfgOf c) r n none now).any isNakA = false) ∧
      (rowsOf (stdHandleMessage (cfgOf c) r n (some e) now) =
        if r + 1 ≥ MAX_RETRIES then [failedRow (cfgOf c).channel n e] else []) ∧
      (dlqOf (stdHandleMessage (cfgOf c) r n (some e) now) =
        if r + 1 ≥ MAX_RETRIES then [⟨n, e, now⟩] else []) ∧
      ((stdHandleMessage (cfgOf c) r n (some e) now).getLast? =
        some (if r + 1 ≥ MAX_RETRIES then WAction.ack else WAction.nak)) ∧
      ((stdHandleMessage (cfgOf c) r n (some e) now).any isAckA =
        decide (r + 1 ≥ MAX_RETRIES)) ∧
      (rowsBeforeAck (stdHandleMessage (cfgOf c) r n (some e) now) = true) ∧
      (rowsOf (inAppHandleMessage r n none none now) =
        [deliveredRow "in_app" n (r + 1)]) ∧
      ((inAppHandleMessage r n none none now).getLast? = some WAction.ack) ∧
      (rowsBeforeAck (inAppHandleMessage r n none none now) = true) ∧
      ((inAppHandleMessage r n none none now).any
        (fun a => a == WAction.wsBroadcast n.userId) = true) ∧
      (rowsOf (inAppHandleMessage r n (some e) none now) = []) ∧
      (dlqOf (inAppHandleMessage r n (some e) none now) =
        if r + 1 ≥ MAX_RETRIES then [⟨n, e, now⟩] else []) ∧
      ((inAppHandleMessage r n (some e) none now).getLast? =
        some (if r + 1 ≥ MAX_RETRIES then WAction.ack else WAction.nak)) ∧
      (rowsOf (inAppHandleMessage r n none (some e) now) =
        [deliveredRow "in_app" n (r + 1)]) ∧
      (dlqOf (inAppHandleMessage r n none (some e) now) =
        if r + 1 ≥ MAX_RETRIES then [⟨n, e, now⟩] else []) ∧
      ((inAppHandleMessage r n none (some e) now).getLast? =
        some (if r + 1 ≥ MAX_RETRIES then WAction.ack else WAction.nak)) := by
  by_cases h3 : r + 1 ≥ MAX_RETRIES <;> by_cases hr : r > 0 <;>
    simp [stdHandleMessage, inAppHandleMessage, backoffTrace, rowsOf, dlqOf,
      rowsBeforeAck, isAckA, isNakA, deliveredRow, failedRow, h3, hr,
      List.filterMap_append, List.takeWhile]

theorem stdProcessBatch_failures (cfg : WorkerCfg) (g : Nat) (batch : List StdMsg) :
    (stdProcessBatch cfg g batch).2 = specFailCount g batch := by
  induction batch generalizing g with
  | nil => rfl
  | cons m ms ih =>
      unfold stdProcessBatch specFailCount
      exact ih _

theorem specFailCount_snoc (g : Nat) (ms : List StdMsg) (m : StdMsg) :
    specFailCount g (ms ++ [m]) =
      if m.sendErr.isNone then 0 else specFailCount g ms + 1 := by
  induction ms generalizing g with
  | nil => rfl
  | cons a as ih =>
      unfold specFailCount
      exact ih _

/-- Claim C6: for the email, sms and push workers, one loop iteration
starting at `f` consecutive failures (breaker flag down, as at every loop
top) first runs the gate - opening the breaker, sleeping the per-channel
cooldown (email/push 10 s, sms 15 s) and resetting counter and breaker
exactly when `f ≥ 5`, all before the fetch - and then processes the batch
with the counter reset to 0 by every success and incremented by every
failure (the snoc law), ending with the breaker closed. -/
theorem circuit_breaker_gate_and_counter (c : BChan) (f : Nat)
    (batch : List StdMsg) :
    ((stdLoopIter (cfgOf c) ⟨f, false⟩ batch).1.takeWhile (fun a => !isFetchA a) =
        if f ≥ 5 then [WAction.breakerOpen, WAction.sleep (cfgOf c).cooldownMs]
        else []) ∧
      ((stdLoopIter (cfgOf c) ⟨f, false⟩ batch).2.circuitOpen = false) ∧
      ((stdLoopIter (cfgOf c) ⟨f, false⟩ batch).2.consecutiveFailures =
        specFailCount (if f ≥ 5 then 0 else f) batch) ∧
      (∀ g ms m, specFailCount g (ms ++ [m]) =
        if m.sendErr.isNone then 0 else specFailCount g ms + 1) ∧
      emailCfg.cooldownMs = 10000 ∧ pushCfg.cooldownMs = 10000 ∧
      smsCfg.cooldownMs = 15000 := by
  refine ⟨?_, ?_, ?_, fun g ms m => specFailCount_snoc g ms m, rfl, rfl, rfl⟩
  · by_cases h5 : f ≥ 5 <;>
      simp [stdLoopIter, stdGate, h5, isFetchA, List.takeWhile]
  · by_cases h5 : f ≥ 5 <;> simp [stdLoopIter, stdGate, h5]
  · by_cases h5 : f ≥ 5 <;>
      simp [stdLoopIter, stdGate, h5, stdProcessBatch_failures]

theorem inAppHandle_no_pause (r : Nat) (n : RenderedMsg)
    (ie we : Option String) (now : String) :
    (inAppHandleMessage r n ie we now).any isPauseA = false := by
  by_cases h : r + 1 ≥ MAX_RETRIES <;>
    rcases ie with _ | e1 <;> rcases we with _ | e2 <;>
      simp [inAppHandleMessage, h, isPauseA]

theorem flatten_any {α : Type} (l : List (List α)) (p : α → Bool) :
    l.flatten.any p = l.any (fun x => x.any p) := by
  induction l with
  | nil => rfl
  | cons a as ih => simp [List.flatten, ih]

/-- Claim C10: the in-app worker keeps no consecutive-failures counter and
no breaker (its loop threads no state at all), and one iteration - for any
batch, including one of nothing but failures at any redelivery counts -
starts with the fetch and contains no sleep and no breaker opening,
whereas each of the email/sms/push workers sleeps its cooldown when
entered at five consecutive failures. -/
theorem inapp_never_pauses (batch : List InAppMsg) :
    ((inAppLoopIter batch).head? = some WAction.fetch) ∧
      ((inAppLoopIter batch).any isPauseA = false) ∧
      (∀ c : BChan, (stdLoopIter (cfgOf c) ⟨5, false⟩ []).1.any isPauseA = true) := by
  refine ⟨rfl, ?_, ?_⟩
  · unfold inAppLoopIter
    simp only [List.any_cons, flatten_any, List.any_map]
    have h1 : isPauseA WAction.fetch = false := rfl
    rw [h1]
    simp only [Bool.false_or]
    rw [List.any_eq_false]
    intro m hm
    obtain ⟨m2, _, rfl⟩ := List.mem_map.mp hm
    exact fun hc => Bool.false_ne_true
      ((inAppHandle_no_pause m2.redeliveryCount m2.msg m2.insertErr m2.wsErr m2.now).symm.trans hc)
  · intro c
    cases c <;> rfl

/-! ## C2: ingestion ack policy

`IngestionService.start` / `processEvent` (src/services/ingestion.ts):
`processEvent` throws on a failed JSON decode or schema validation, and
the pull loop's catch handler NAKs; only a normally returning
`processEvent` (including the silent duplicate drop) is acked. -/

inductive AckOutcome where
  | ack
  | nak
deriving DecidableEq, Repr

structure IngestResult where
  outcome : AckOutcome
  published : Bool
  dedupAfter : Bool
deriving DecidableEq, Repr

/-- Embedding of one iteration of the ingestion loop on one message:
`payload = none` models a JSON decode error. -/
def ingestionStep (isDT : String → Bool) (now : String)
    (payload : Option RawEvent) (dedupPresent : Bool) : IngestResult :=
  match payload with
  | none => ⟨.nak, false, dedupPresent⟩
  | some raw =>
    match validateEvent isDT now raw with
    | none => ⟨.nak, false, dedupPresent⟩
    | some _ =>
      if dedupPresent then ⟨.ack, false, true⟩
      else ⟨.ack, true, true⟩

def rawInvalid : RawEvent :=
  ⟨none, none, none, none, none, none, none, none, none, none⟩

/-- Claim C2 (code bug): on a decode failure or a schema-validation
failure the ingestion loop NAKs the poison message, which the broker will
redeliver to ingestion (the ingestion consumer sets no `max_deliver`);
the spec mandates an ack-drop. -/
theorem ingestion_naks_poison_message :
    ingestionStep (fun _ => true) "T0" none false =
        ⟨.nak, false, false⟩ ∧
      ingestionStep (fun _ => true) "T0" (some rawInvalid) false =
        ⟨.nak, false, false⟩ := by
  constructor <;> rfl

/-! ## C9: deduplication under concurrency

`IngestionService.checkDuplicate` (src/services/ingestion.ts) runs a Redis
GET and then, when the key was absent, a separate SETEX - not an atomic
set-if-absent.  Two concurrent redeliveries are modelled as two processes
each running get-then-set-then-publish, interleaved by a schedule over a
shared store (the dedup key's presence). -/

/-- Program counter of one in-flight check-then-publish: `start` (about to
GET), `willSet` (the GET saw no key; about to SETEX and then enrich and
publish), or `finished` carrying whether it published. -/
inductive DedupPc where
  | start
  | willSet
  | finished (published : Bool)
deriving DecidableEq, Repr

def dedupStep : DedupPc → Bool → DedupPc × Bool
  | .start, store => if store then (.finished false, store) else (.willSet, store)
  | .willSet, _ => (.finished true, true)
  | .finished b, store => (.finished b, store)

structure DedupSystem where
  p0 : DedupPc
  p1 : DedupPc
  store : Bool
deriving DecidableEq, Repr

def initDedup : DedupSystem := ⟨.start, .start, false⟩

def runSched : List (Fin 2) → DedupSystem → DedupSystem
  | [], sys => sys
  | i :: rest, sys =>
      if i = 0 then
        let s2 := dedupStep sys.p0 sys.store
        runSched rest ⟨s2.1, sys.p1, s2.2⟩
      else
        let s2 := dedupStep sys.p1 sys.store
        runSched rest ⟨sys.p0, s2.1, s2.2⟩

def publishedCount (sys : DedupSystem) : Nat :=
  (match sys.p0 with | .finished true => 1 | _ => 0) +
    (match sys.p1 with | .finished true => 1 | _ => 0)

/-- Counterexample to claim C9 as stated: the GET-then-SETEX dedup check
is not atomic - when two concurrent redeliveries of the same `event_id`
both GET before either SETEX, both pass the check and both publish an
enriched event. -/
theorem dedup_race_double_publish :
    publishedCount (runSched [0, 1, 0, 1] initDedup) = 2 := by decide

/-- Claim C9 amended: the dedup check is a non-atomic get-then-set, so
at most one enriched event within the TTL is guaranteed only when the
redeliveries are processed serially - whichever runs first publishes,
and the other then sees the key and is silently dropped. -/
theorem dedup_serial_single_publish :
    ∀ first : Fin 2,
      publishedCount (runSched [first, first, 1 - first, 1 - first] initDedup) = 1 := by
  decide

/-! ## C8: analytics

`AnalyticsService.getAnalytics` (src/services/analytics.ts).  Rows are
aggregated over the period window; SQL numeric division is modelled with
rationals, `Math.round` with floor of the half-up shift. -/

structure DRow where
  channel : String
  eventType : String
  status : String
  attemptCount : Nat
  createdAtMs : Int
deriving DecidableEq, Repr

structure ChannelMetrics where
  channel : String
  total : Nat
  delivered : Nat
  failed : Nat
  successRate : ℚ
  avgAttempts : ℚ
deriving DecidableEq, Repr

structure EventTypeCount where
  eventType : String
  count : Nat
deriving DecidableEq, Repr

structure DeliveryAnalytics where
  period : String
  totalDeliveries : Nat
  successRate : ℚ
  channelMetrics : List ChannelMetrics
  topEventTypes : List EventTypeCount
deriving DecidableEq, Repr

/-- JavaScript `Math.round`: floor of the argument plus one half. -/
def jsRound (q : ℚ) : Int := Int.fdiv (2 * q.num + (q.den : Int)) (2 * (q.den : Int))

/-- `Math.round(q * 100) / 100` - round to two decimals. -/
def roundTo2 (q : ℚ) : ℚ := (jsRound (q * 100) : ℚ) / 100

/-- `delivered / total * 100`, and 0 when the total is 0. -/
def pct (delivered total : Nat) : ℚ :=
  if total > 0 then ((delivered : ℚ) / (total : ℚ)) * 100 else 0

/-- GROUP BY keys in first-appearance order (the canonical order chosen
for the unordered SQL grouping). -/
def keysIn (key : DRow → String) (rows : List DRow) : List String :=
  rows.foldl (fun acc r => if acc.contains (key r) then acc else acc ++ [key r]) []

def countStatus (st : String) (rows : List DRow) : Nat :=
  (rows.filter (fun r => r.status == st)).length

/-- Stable insertion keeping counts in descending order. -/
def insertByCount (x : EventTypeCount) : List EventTypeCount → List EventTypeCount
  | [] => [x]
  | y :: ys => if y.count < x.count then x :: y :: ys else y :: insertByCount x ys

def sortByCountDesc (l : List EventTypeCount) : List EventTypeCount :=
  l.foldr insertByCount []

def windowRows (periodHours : Nat) (nowMs : Int) (rows : List DRow) : List DRow :=
  rows.filter (fun r => decide (nowMs - (periodHours : Int) * 3600000 ≤ r.createdAtMs))

/-- Embedding of `AnalyticsService.getAnalytics`: overall stats with the
rate rounded to two decimals, per-channel stats with the rate NOT rounded
but the average attempts rounded, and the top ten event types by count. -/
def getAnalytics (periodHours : Nat) (nowMs : Int) (rows : List DRow) :
    DeliveryAnalytics :=
  let win := windowRows periodHours nowMs rows
  { period := toString periodHours ++ "h"
    totalDeliveries := win.length
    successRate := roundTo2 (pct (countStatus "delivered" win) win.length)
    channelMetrics := (keysIn (fun r => r.channel) win).map (fun c =>
      let crows := win.filter (fun r => r.channel == c)
      { channel := c
        total := crows.length
        delivered := countStatus "delivered" crows
        failed := countStatus "failed" crows
        successRate := pct (countStatus "delivered" crows) crows.length
        avgAttempts := roundTo2 (if crows.length > 0 then
          (((crows.map (fun r => r.attemptCount)).sum : ℚ) / (crows.length : ℚ))
          else 0) })
    topEventTypes := (sortByCountDesc ((keysIn (fun r => r.eventType) win).map
      (fun t => ⟨t, (win.filter (fun r => r.eventType == t)).length⟩))).take 10 }

/-- The analytics the claim's words describe: identical except that the
per-channel success rate is ALSO rounded to two decimals. -/
def claimAnalytics (periodHours : Nat) (nowMs : Int) (rows : List DRow) :
    DeliveryAnalytics :=
  let win := windowRows periodHours nowMs rows
  { period := toString periodHours ++ "h"
    totalDeliveries := win.length
    successRate := roundTo2 (pct (countStatus "delivered" win) win.length)
    channelMetrics := (keysIn (fun r => r.channel) win).map (fun c =>
      let crows := win.filter (fun r => r.channel == c)
      { channel := c
        total := crows.length
        delivered := countStatus "delivered" crows
        failed := countStatus "failed" crows
        successRate := roundTo2 (pct (countStatus "delivered" crows) crows.length)
        avgAttempts := roundTo2 (if crows.length > 0 then
          (((crows.map (fun r => r.attemptCount)).sum : ℚ) / (crows.length : ℚ))
          else 0) })
    topEventTypes := (sortByCountDesc ((keysIn (fun r => r.eventType) win).map
      (fun t => ⟨t, (win.filter (fun r => r.eventType == t)).length⟩))).take 10 }

def rows3 : List DRow :=
  [⟨"email", "account", "delivered", 1, 0⟩,
    ⟨"email", "account", "failed", 3, 0⟩,
    ⟨"email", "account", "failed", 3, 0⟩]

/-- Counterexample to claim C8 as stated: with one delivered and two
failed email rows the per-channel success rate is 100/3, which the code
reports unrounded while the claim demands 33.33. -/
theorem analytics_channel_rate_unrounded :
    ((getAnalytics 24 0 rows3).channelMetrics.map (fun m => m.successRate) =
        [100 / 3]) ∧
      ((claimAnalytics 24 0 rows3).channelMetrics.map (fun m => m.successRate) =
        [3333 / 100]) ∧
      (100 / 3 : ℚ) ≠ 3333 / 100 := by
  have h1 : (("failed" : String) == "delivered") = false := by decide
  have h2 : (("delivered" : String) == "delivered") = true := by decide
  have h3 : (("email" : String) == "email") = true := by decide
  have h4 : (("account" : String) == "account") = true := by decide
  have h5 : Int.fdiv 20003 6 = 3333 := by decide
  refine ⟨?_, ?_, by norm_num⟩ <;>
    norm_num [getAnalytics, claimAnalytics, windowRows, rows3, keysIn,
      countStatus, pct, roundTo2, jsRound, sortByCountDesc, insertByCount,
      List.filter, List.foldl, h1, h2, h3, h4, h5]

/-- Per-channel metrics as the amended claim words them: counts over the
window rows of the channel, the success rate by the same
`delivered/total*100` formula but NOT rounded, and the average attempts
rounded to two decimals. -/
def specChannelMetrics (win : List DRow) (c : String) : ChannelMetrics :=
  { channel := c
    total := win.countP (fun r => r.channel == c)
    delivered := win.countP (fun r => r.status == "delivered" && r.channel == c)
    failed := win.countP (fun r => r.status == "failed" && r.channel == c)
    successRate := pct (win.countP (fun r => r.status == "delivered" && r.channel == c))
      (win.countP (fun r => r.channel == c))
    avgAttempts := roundTo2 (if win.countP (fun r => r.channel == c) > 0 then
      (((win.filter (fun r => r.channel == c)).map (fun r => r.attemptCount)).sum : ℚ) /
        (win.countP (fun r => r.channel == c) : ℚ) else 0) }

/-- The analytics of the amended claim: totals and rates counted over the
period window, the overall rate rounded to two decimals, the per-channel
rate unrounded (with the average attempts rounded instead), and the top
ten event types by count. -/
def specAnalytics (periodHours : Nat) (nowMs : Int) (rows : List DRow) :
    DeliveryAnalytics :=
  let win := windowRows periodHours nowMs rows
  { period := toString periodHours ++ "h"
    totalDeliveries := rows.countP
      (fun r => decide (nowMs - (periodHours : Int) * 3600000 ≤ r.createdAtMs))
    successRate := roundTo2 (pct (win.countP (fun r => r.status == "delivered"))
      win.length)
    channelMetrics := (keysIn (fun r => r.channel) win).map (specChannelMetrics win)
    topEventTypes := (sortByCountDesc ((keysIn (fun r => r.eventType) win).map
      (fun t => ⟨t, win.countP (fun r => r.eventType == t)⟩))).take 10 }

/-- Claim C8 amended: `getAnalytics` computes exactly the claimed
aggregates, except that only the overall success rate (and the per-channel
average attempts) is rounded to two decimals - the per-channel success
rate is reported unrounded. -/
theorem analytics_amended (ph : Nat) (nowMs : Int) (rows : List DRow) :
    getAnalytics ph nowMs rows = specAnalytics ph nowMs rows := by
  unfold getAnalytics specAnalytics specChannelMetrics windowRows countStatus
  simp only [List.countP_eq_length_filter, List.filter_filter, Bool.and_assoc]

end Notif
